import Mathlib

/-!
Shallow embedding of the `GQLRegistry` class (src/GQLRegistry.ts) and its
plugin protocol (GQLRegistryPlugin).

Modelling conventions:
* GraphQL AST nodes are flattened to their registry-relevant content: a node
  kind, a name, an optional field list and an opaque numeric payload standing
  for the remainder of the node (arguments, types, descriptions...).
* Resolver functions, data sources, executors, schema transforms and pre-start
  callbacks are opaque `Nat` tokens; pre-start callbacks are interpreted by an
  external environment, mirroring that they are arbitrary user code.
* The external collaborators (`makeExecutableSchema`, `wrapSchema`/
  `transformSchema`, `stitchSchemas`, directive-resolver application) are
  modelled as free constructors of an `Artifact` term algebra: the registry
  only assembles their inputs.
* Plugin hooks are modelled as pure contribution functions of the two
  documents they receive, per the plugin protocol; a `none` result covers both
  an absent hook and a hook returning null.  `validateSchema` returning
  `false` models the hook raising.  Pipeline runs additionally produce an
  event trace recording each hook call site with the documents passed to it.
* `console.warn` duplicate diagnostics (checkForDuplicate*) are side-effect
  only and are not modelled.
-/

namespace GQLRegistry

/-- The AST node kinds the registry discriminates on (graphql `Kind`). -/
inductive NodeKind where
  | scalarTypeDefinition
  | objectTypeDefinition
  | interfaceTypeDefinition
  | unionTypeDefinition
  | enumTypeDefinition
  | inputObjectTypeDefinition
  | scalarTypeExtension
  | objectTypeExtension
  | interfaceTypeExtension
  | unionTypeExtension
  | enumTypeExtension
  | inputObjectTypeExtension
  | directiveDefinition
  | fieldDefinition
  | otherDefinition
deriving DecidableEq, Repr

/-- A `FieldDefinitionNode`: kind tag, field name, opaque rest of the node. -/
structure FieldDef where
  kind : NodeKind
  name : String
  payload : Nat := 0
deriving DecidableEq, Repr

/-- A top-level definition node (`DefinitionNode`): type / extension /
directive definitions, and the synthesized Query/Mutation/Subscription
containers, which carry a field list. -/
structure DefNode where
  kind : NodeKind
  name : String
  fields : List FieldDef := []
  payload : Nat := 0
deriving DecidableEq, Repr

/-- A `DocumentNode`. -/
structure Document where
  definitions : List DefNode
deriving DecidableEq, Repr

/-- Membership test for `typeDefinitionTypes` (`isTypeDefinitionNode`). -/
def isTypeDefinitionNode (d : DefNode) : Bool :=
  match d.kind with
  | .scalarTypeDefinition | .objectTypeDefinition | .interfaceTypeDefinition
  | .unionTypeDefinition | .enumTypeDefinition | .inputObjectTypeDefinition => true
  | _ => false

/-- Membership test for `typeExtensionTypes` (`isTypeExtensionNode`). -/
def isTypeExtensionNode (d : DefNode) : Bool :=
  match d.kind with
  | .scalarTypeExtension | .objectTypeExtension | .interfaceTypeExtension
  | .unionTypeExtension | .enumTypeExtension | .inputObjectTypeExtension => true
  | _ => false

/-- Resolver maps (`{ [k: string]: any }`): insertion-ordered association
lists with opaque values, JS-object style. -/
abbrev RMap := List (String × Nat)

/-- JS property assignment `obj[k] = v`: overwrite in place if the key
exists, else append. -/
def objInsert {α : Type} (m : List (String × α)) (kv : String × α) : List (String × α) :=
  if m.any (fun p => p.1 == kv.1) then
    m.map (fun p => if p.1 == kv.1 then (p.1, kv.2) else p)
  else m ++ [kv]

/-- JS object spread-merge `{...a, ...b}` / keywise assignment loop. -/
def objMerge {α : Type} (a b : List (String × α)) : List (String × α) :=
  b.foldl objInsert a

/-- Resolver values handed to the compile collaborator: either an opaque
registered resolver or a synthesized `Query`/`Mutation`/`Subscription`
group. -/
inductive RVal where
  | raw (v : Nat)
  | group (m : RMap)
deriving DecidableEq, Repr

abbrev Resolvers := List (String × RVal)

/-- The artifacts produced by the external collaborators, as a free term
algebra: `compiled` = makeExecutableSchema, `wrapped` = transformSchema /
wrapSchema over a remote source, `stitched` = stitchSchemas,
`directiveApplied` = one directive-resolver transform application. -/
inductive Artifact where
  | compiled (typeDefs : Document) (resolvers : Option Resolvers)
  | wrapped (source : Nat) (executor : Nat) (transforms : List Nat)
  | stitched (subschemas : List Artifact) (typeDefs : Document) (resolvers : Option Resolvers)
  | directiveApplied (resolver : Nat) (schema : Artifact)
deriving Repr

/-- Model of `RegisterRemoteSchemaArgs` as stored in `remoteSchemas`: the schema and
async supplier are opaque source tokens (`asyncSchema = some s` models a
supplier resolving to source `s`). -/
structure RemoteDescriptor where
  name : String
  asyncSchema : Option Nat := none
  schema : Option Nat := none
  executor : Nat
  transforms : List Nat := []
  executable : Option Artifact := none
deriving Repr

/-- The hook call sites of the plugin pipeline, used to tag trace events. -/
inductive HookId where
  | setInitialSchema
  | schemaUpdated
  | setFinalSchema
  | validateSchema
  | clearHook
  | addPrePropertiesToTypeDefinition
  | addPostPropertiesToTypeDefinition
  | addDirectiveDefinitions
  | addDirectiveResolvers
  | addTypeDefinitions
  | addTypeDefinitionsForTypeDefinition
  | addTypeDefinitionExtensionsForTypeDefinition
  | addTypeResolvers
  | addTypeResolversForTypeDefinition
  | addTypeResolverExtensionsForTypeDefinition
  | addQueryDefinitions
  | addQueryDefinitionsForTypeDefinition
  | addQueryDefinitionExtensionsForTypeDefinition
  | addQueryResolvers
  | addQueryResolversForTypeDefinition
  | addQueryResolverExtensionsForTypeDefinition
  | addMutationDefinitions
  | addMutationDefinitionsForTypeDefinition
  | addMutationDefinitionExtensionsForTypeDefinition
  | addMutationResolvers
  | addMutationResolversForTypeDefinition
  | addMutationResolverExtensionsForTypeDefinition
  | addSubscriptionDefinitions
  | addSubscriptionDefinitionsForTypeDefinition
  | addSubscriptionDefinitionExtensionsForTypeDefinition
  | addSubscriptionResolvers
  | addSubscriptionResolversForTypeDefinition
  | addSubscriptionResolverExtensionsForTypeDefinition
deriving DecidableEq, Repr

/-- One hook call in the pipeline: which plugin, which hook, the documents
passed to it, and (for per-definition hooks) the definition argument. -/
structure Event where
  plugin : String
  hook : HookId
  schema : Document
  extensions : Document
  target : Option DefNode := none
deriving DecidableEq, Repr

/-- A `GQLRegistryPlugin`.  Optional contribution hooks are total functions
returning `Option`; `none` covers both an absent hook and a null return.
`validateSchema = fun _ _ => false` models the hook raising. -/
structure Plugin where
  name : String
  registrySet : Bool := false
  validateSchema : Document → Document → Bool := fun _ _ => true
  addPrePropertiesToTypeDefinition : DefNode → Document → Document → Option DefNode := fun _ _ _ => none
  addPostPropertiesToTypeDefinition : DefNode → Document → Document → Option DefNode := fun _ _ _ => none
  addDirectiveDefinitions : Document → Document → Option (List DefNode) := fun _ _ => none
  addDirectiveResolvers : Document → Document → Option RMap := fun _ _ => none
  addTypeDefinitions : Document → Document → Option (List DefNode) := fun _ _ => none
  addTypeDefinitionsForTypeDefinition : DefNode → Document → Document → Option (List DefNode) := fun _ _ _ => none
  addTypeDefinitionExtensionsForTypeDefinition : DefNode → Document → Document → Option (List DefNode) := fun _ _ _ => none
  addTypeResolvers : Document → Document → Option RMap := fun _ _ => none
  addTypeResolversForTypeDefinition : DefNode → Document → Document → Option RMap := fun _ _ _ => none
  addTypeResolverExtensionsForTypeDefinition : DefNode → Document → Document → Option RMap := fun _ _ _ => none
  addQueryDefinitions : Document → Document → Option (List FieldDef) := fun _ _ => none
  addQueryDefinitionsForTypeDefinition : DefNode → Document → Document → Option (List FieldDef) := fun _ _ _ => none
  addQueryDefinitionExtensionsForTypeDefinition : DefNode → Document → Document → Option (List FieldDef) := fun _ _ _ => none
  addQueryResolvers : Document → Document → Option RMap := fun _ _ => none
  addQueryResolversForTypeDefinition : DefNode → Document → Document → Option RMap := fun _ _ _ => none
  addQueryResolverExtensionsForTypeDefinition : DefNode → Document → Document → Option RMap := fun _ _ _ => none
  addMutationDefinitions : Document → Document → Option (List FieldDef) := fun _ _ => none
  addMutationDefinitionsForTypeDefinition : DefNode → Document → Document → Option (List FieldDef) := fun _ _ _ => none
  addMutationDefinitionExtensionsForTypeDefinition : DefNode → Document → Document → Option (List FieldDef) := fun _ _ _ => none
  addMutationResolvers : Document → Document → Option RMap := fun _ _ => none
  addMutationResolversForTypeDefinition : DefNode → Document → Document → Option RMap := fun _ _ _ => none
  addMutationResolverExtensionsForTypeDefinition : DefNode → Document → Document → Option RMap := fun _ _ _ => none
  addSubscriptionDefinitions : Document → Document → Option (List FieldDef) := fun _ _ => none
  addSubscriptionDefinitionsForTypeDefinition : DefNode → Document → Document → Option (List FieldDef) := fun _ _ _ => none
  addSubscriptionDefinitionExtensionsForTypeDefinition : DefNode → Document → Document → Option (List FieldDef) := fun _ _ _ => none
  addSubscriptionResolvers : Document → Document → Option RMap := fun _ _ => none
  addSubscriptionResolversForTypeDefinition : DefNode → Document → Document → Option RMap := fun _ _ _ => none
  addSubscriptionResolverExtensionsForTypeDefinition : DefNode → Document → Document → Option RMap := fun _ _ _ => none

/-- The registry state: every field of the `GQLRegistry` class. -/
structure Registry where
  remoteSchemas : List (String × RemoteDescriptor) := []
  directiveDefinitions : List DefNode := []
  directiveResolvers : RMap := []
  typeDefinitions : List DefNode := []
  queryDefinitions : List FieldDef := []
  mutationDefinitions : List FieldDef := []
  subscriptionDefinitions : List FieldDef := []
  typeResolvers : RMap := []
  queryResolvers : RMap := []
  mutationResolvers : RMap := []
  subscriptionResolvers : RMap := []
  extensionTypeDefinitions : List DefNode := []
  extensionQueryDefinitions : List FieldDef := []
  extensionMutationDefinitions : List FieldDef := []
  extensionSubscriptionDefinitions : List FieldDef := []
  extensionTypeResolvers : RMap := []
  extensionQueryResolvers : RMap := []
  extensionMutationResolvers : RMap := []
  extensionSubscriptionResolvers : RMap := []
  internalValues : RMap := []
  executableSchema : Option Artifact := none
  dataSources : List (String × Nat) := []
  preStartFunctions : List Nat := []
  hasExecutedPreStart : Bool := false
  hasProcessedPlugins : Bool := false
  plugins : List Plugin := []

def emptyRegistry : Registry := {}

/-!  ## Merge Engine

Each `mergeIncoming*` method of the source scans the incoming array and, for
each element of the accepted kind, `findIndex`+`splice`s any entry of the
same name out of the store and `push`es the new element at the end.  The
common core is `upsertBy`. -/

/-- Name-keyed upsert: drop items not satisfying `keep`; for kept items,
erase the first stored entry with the same key and append the item. -/
def upsertBy {β : Type} (keep : β → Bool) (key : β → String)
    (store : List β) (incoming : List β) : List β :=
  incoming.foldl
    (fun s d => if keep d then (s.eraseP (fun q => key q == key d)) ++ [d] else s)
    store

/-- Core of `mergeIncomingTypes` on the type store (kind filter `isTypeDefinitionNode`). -/
def upsertTypeDefs (store incoming : List DefNode) : List DefNode :=
  upsertBy isTypeDefinitionNode DefNode.name store incoming

/-- Core of `mergeIncomingDirectives` on the directive store (kind `DIRECTIVE_DEFINITION`). -/
def upsertDirectiveDefs (store incoming : List DefNode) : List DefNode :=
  upsertBy (fun d => d.kind == NodeKind.directiveDefinition) DefNode.name store incoming

/-- Core of `mergeIncomingQueries` / `Mutations` / `Subscriptions` (and their
extension variants) on a field store (kind `FIELD_DEFINITION`). -/
def upsertFieldDefs (store incoming : List FieldDef) : List FieldDef :=
  upsertBy (fun f => f.kind == NodeKind.fieldDefinition) FieldDef.name store incoming

def mergeIncomingDirectives (r : Registry) (ds : List DefNode) : Registry :=
  { r with directiveDefinitions := upsertDirectiveDefs r.directiveDefinitions ds }

def mergeIncomingTypes (r : Registry) (ds : List DefNode) : Registry :=
  { r with typeDefinitions := upsertTypeDefs r.typeDefinitions ds }

/-- Model of `mergeIncomingExtensionTypes`: extension-kind items go to the extension
store; base-kind items are routed into the base type store instead. -/
def mergeIncomingExtensionTypes (r : Registry) (ds : List DefNode) : Registry :=
  ds.foldl
    (fun r d =>
      if isTypeExtensionNode d then
        { r with extensionTypeDefinitions :=
            (r.extensionTypeDefinitions.eraseP (fun q => q.name == d.name)) ++ [d] }
      else if isTypeDefinitionNode d then
        { r with typeDefinitions :=
            (r.typeDefinitions.eraseP (fun q => q.name == d.name)) ++ [d] }
      else r)
    r

def mergeIncomingQueries (r : Registry) (fs : List FieldDef) : Registry :=
  { r with queryDefinitions := upsertFieldDefs r.queryDefinitions fs }

def mergeIncomingExtensionQueries (r : Registry) (fs : List FieldDef) : Registry :=
  { r with extensionQueryDefinitions := upsertFieldDefs r.extensionQueryDefinitions fs }

def mergeIncomingMutations (r : Registry) (fs : List FieldDef) : Registry :=
  { r with mutationDefinitions := upsertFieldDefs r.mutationDefinitions fs }

def mergeIncomingExtensionMutations (r : Registry) (fs : List FieldDef) : Registry :=
  { r with extensionMutationDefinitions := upsertFieldDefs r.extensionMutationDefinitions fs }

def mergeIncomingSubscriptions (r : Registry) (fs : List FieldDef) : Registry :=
  { r with subscriptionDefinitions := upsertFieldDefs r.subscriptionDefinitions fs }

def mergeIncomingExtensionSubscriptions (r : Registry) (fs : List FieldDef) : Registry :=
  { r with extensionSubscriptionDefinitions := upsertFieldDefs r.extensionSubscriptionDefinitions fs }

/-!  ## Registration -/

def registerDataSource (r : Registry) (name : String) (dataSource : Nat) : Registry :=
  { r with dataSources := objInsert r.dataSources (name, dataSource) }

/-- Model of `registerRemoteSchema`: first registration per name wins. -/
def registerRemoteSchema (r : Registry) (args : RemoteDescriptor) : Registry :=
  if r.remoteSchemas.any (fun kv => kv.1 == args.name) then r
  else { r with remoteSchemas := r.remoteSchemas ++ [(args.name, args)] }

structure RegisterDirectiveArgs where
  directiveDefinition : Option Document := none
  directiveResolvers : RMap := []

def registerDirectives (r : Registry) (args : RegisterDirectiveArgs) : Registry :=
  let r := match args.directiveDefinition with
    | some doc => mergeIncomingDirectives r doc.definitions
    | none => r
  { r with directiveResolvers := objMerge r.directiveResolvers args.directiveResolvers }

structure RegisterTypeArgs where
  typeDefinitions : Option Document := none
  queryDefinitions : Option Document := none
  mutationDefinitions : Option Document := none
  subscriptionDefinitions : Option Document := none
  typeResolvers : RMap := []
  queryResolvers : RMap := []
  mutationResolvers : RMap := []
  subscriptionResolvers : RMap := []

/-- Model of the extraction `(doc?.definitions?.find(d => d.kind === OBJECT_TYPE_DEFINITION &&
d.name.value === opName) as ObjectTypeDefinitionNode)?.fields ?? []`. -/
def operationFields (opName : String) (doc : Option Document) : List FieldDef :=
  match doc with
  | none => []
  | some d =>
    match d.definitions.find?
        (fun df => df.kind == NodeKind.objectTypeDefinition && df.name == opName) with
    | some df => df.fields
    | none => []

def registerType (r : Registry) (args : RegisterTypeArgs) : Registry :=
  let r := match args.typeDefinitions with
    | some doc => mergeIncomingTypes r doc.definitions
    | none => r
  let r := mergeIncomingQueries r (operationFields "Query" args.queryDefinitions)
  let r := mergeIncomingMutations r (operationFields "Mutation" args.mutationDefinitions)
  let r := mergeIncomingSubscriptions r (operationFields "Subscription" args.subscriptionDefinitions)
  let r := { r with typeResolvers := objMerge r.typeResolvers args.typeResolvers }
  let r := { r with queryResolvers := objMerge r.queryResolvers args.queryResolvers }
  let r := { r with mutationResolvers := objMerge r.mutationResolvers args.mutationResolvers }
  { r with subscriptionResolvers := objMerge r.subscriptionResolvers args.subscriptionResolvers }

structure RegisterTypeExtensionArgs where
  extensionTypeDefinitions : Option Document := none
  extensionQueryDefinitions : Option Document := none
  extensionMutationDefinitions : Option Document := none
  extensionSubscriptionDefinitions : Option Document := none
  extensionTypeResolvers : RMap := []
  extensionQueryResolvers : RMap := []
  extensionMutationResolvers : RMap := []
  extensionSubscriptionResolvers : RMap := []

def registerTypeExtension (r : Registry) (args : RegisterTypeExtensionArgs) : Registry :=
  let r := match args.extensionTypeDefinitions with
    | some doc => mergeIncomingExtensionTypes r doc.definitions
    | none => r
  let r := mergeIncomingExtensionQueries r (operationFields "Query" args.extensionQueryDefinitions)
  let r := mergeIncomingExtensionMutations r (operationFields "Mutation" args.extensionMutationDefinitions)
  let r := mergeIncomingExtensionSubscriptions r (operationFields "Subscription" args.extensionSubscriptionDefinitions)
  let r := { r with extensionQueryResolvers := objMerge r.extensionQueryResolvers args.extensionQueryResolvers }
  let r := { r with extensionMutationResolvers := objMerge r.extensionMutationResolvers args.extensionMutationResolvers }
  let r := { r with extensionTypeResolvers := objMerge r.extensionTypeResolvers args.extensionTypeResolvers }
  { r with extensionSubscriptionResolvers := objMerge r.extensionSubscriptionResolvers args.extensionSubscriptionResolvers }

def registerInternalValues (r : Registry) (internalValues : RMap) : Registry :=
  { r with internalValues := objMerge r.internalValues internalValues }

def registerPreStartFunction (r : Registry) (f : Nat) : Registry :=
  { r with preStartFunctions := r.preStartFunctions ++ [f] }

/-- Model of `registerPlugin`: ignored when a plugin of the same name is already
registered; otherwise the back-reference is set and the plugin appended. -/
def registerPlugin (r : Registry) (plugin : Plugin) : Registry :=
  match r.plugins.find? (fun q => q.name == plugin.name) with
  | some _ => r
  | none => { r with plugins := r.plugins ++ [{ plugin with registrySet := true }] }

/-- Model of `clear()`.  Returns the cleared registry together with the names of the
plugins whose `clear` hook call site was reached (`plu.clear?.()` for every
registered plugin, in order).  Note the source does NOT touch
`preStartFunctions`, `hasExecutedPreStart` or `plugins`. -/
def clear (r : Registry) : Registry × List String :=
  ({ r with
      remoteSchemas := []
      directiveDefinitions := []
      directiveResolvers := []
      typeDefinitions := []
      queryDefinitions := []
      mutationDefinitions := []
      subscriptionDefinitions := []
      typeResolvers := []
      queryResolvers := []
      mutationResolvers := []
      subscriptionResolvers := []
      extensionTypeDefinitions := []
      extensionQueryDefinitions := []
      extensionMutationDefinitions := []
      extensionSubscriptionDefinitions := []
      extensionQueryResolvers := []
      extensionMutationResolvers := []
      extensionTypeResolvers := []
      extensionSubscriptionResolvers := []
      internalValues := []
      executableSchema := none
      dataSources := []
      hasProcessedPlugins := false },
   r.plugins.map Plugin.name)

/-!  ## Document Assembler -/

/-- Model of `getDefinitionsDocument`: stored types, then directives, then a
synthesized container per operation category whose field list is non-empty. -/
def getDefinitionsDocument (r : Registry) : Document :=
  let definitions := r.typeDefinitions ++ r.directiveDefinitions
  let definitions :=
    if r.queryDefinitions.isEmpty then definitions
    else definitions ++ [{ kind := .objectTypeDefinition, name := "Query", fields := r.queryDefinitions }]
  let definitions :=
    if r.mutationDefinitions.isEmpty then definitions
    else definitions ++ [{ kind := .objectTypeDefinition, name := "Mutation", fields := r.mutationDefinitions }]
  let definitions :=
    if r.subscriptionDefinitions.isEmpty then definitions
    else definitions ++ [{ kind := .objectTypeDefinition, name := "Subscription", fields := r.subscriptionDefinitions }]
  { definitions := definitions }

/-- Model of `getExtensionDefinitionsDocument`: stored type extensions, then
directives, then a synthesized extension container per non-empty category. -/
def getExtensionDefinitionsDocument (r : Registry) : Document :=
  let definitions := r.extensionTypeDefinitions ++ r.directiveDefinitions
  let definitions :=
    if r.extensionQueryDefinitions.isEmpty then definitions
    else definitions ++ [{ kind := .objectTypeExtension, name := "Query", fields := r.extensionQueryDefinitions }]
  let definitions :=
    if r.extensionMutationDefinitions.isEmpty then definitions
    else definitions ++ [{ kind := .objectTypeExtension, name := "Mutation", fields := r.extensionMutationDefinitions }]
  let definitions :=
    if r.extensionSubscriptionDefinitions.isEmpty then definitions
    else definitions ++ [{ kind := .objectTypeExtension, name := "Subscription", fields := r.extensionSubscriptionDefinitions }]
  { definitions := definitions }

/-!  ## Resolver assembly -/

def getDirectiveResolvers (r : Registry) : RMap := r.directiveResolvers

/-- Model of `getResolvers`: internal values and type resolvers, plus a
`Query`/`Mutation`/`Subscription` group for each non-empty resolver map. -/
def getResolvers (r : Registry) : Resolvers :=
  let defs := objMerge (r.internalValues.map (fun kv => (kv.1, RVal.raw kv.2)))
                       (r.typeResolvers.map (fun kv => (kv.1, RVal.raw kv.2)))
  let defs := if r.queryResolvers.isEmpty then defs
    else objMerge defs [("Query", RVal.group r.queryResolvers)]
  let defs := if r.mutationResolvers.isEmpty then defs
    else objMerge defs [("Mutation", RVal.group r.mutationResolvers)]
  if r.subscriptionResolvers.isEmpty then defs
  else objMerge defs [("Subscription", RVal.group r.subscriptionResolvers)]

/-- Model of `getExtensionResolvers`. -/
def getExtensionResolvers (r : Registry) : Resolvers :=
  let defs := r.extensionTypeResolvers.map (fun kv => (kv.1, RVal.raw kv.2))
  let defs := if r.extensionQueryResolvers.isEmpty then defs
    else objMerge defs [("Query", RVal.group r.extensionQueryResolvers)]
  let defs := if r.extensionMutationResolvers.isEmpty then defs
    else objMerge defs [("Mutation", RVal.group r.extensionMutationResolvers)]
  if r.extensionSubscriptionResolvers.isEmpty then defs
  else objMerge defs [("Subscription", RVal.group r.extensionSubscriptionResolvers)]

/-!  ## Plugin Pipeline

`processPlugins` and its per-hook helpers.  Each helper returns the updated
registry and the event trace of the hook calls it performed, in call order.
The near-identical `processPlugin{Type,Query,Mutation,Subscription}...`
methods of the source are instances of four builders (`stepDefs`,
`stepDefsPerOnly`, `stepResolvers`, `stepResolversPerOnly`). -/

/-- Model of `updatePluginSchemas`: notify every plugin with freshly recomputed
documents. -/
def updatePluginSchemas (r : Registry) : List Event :=
  r.plugins.map (fun p =>
    { plugin := p.name, hook := .schemaUpdated,
      schema := getDefinitionsDocument r,
      extensions := getExtensionDefinitionsDocument r })

/-- The per-definition hook call events of one sub-step: one call per
definition of the (already computed) schema document. -/
def perDefEvents (pname : String) (h : HookId) (schema extensions : Document) : List Event :=
  schema.definitions.map (fun d =>
    { plugin := pname, hook := h, schema := schema, extensions := extensions, target := some d })

/-- A definition-adding sub-step with a global hook and a per-definition
hook (`processPluginTypeDefinitions`, `...QueryDefinitions`, ...): run the
global hook, merge; run the per-definition hook over `schema.definitions`,
merging each output; if anything merged, re-broadcast fresh documents. -/
def stepDefs {α : Type} (pname : String) (hidG hidP : HookId)
    (global : Document → Document → Option (List α))
    (perDef : DefNode → Document → Document → Option (List α))
    (merge : Registry → List α → Registry)
    (schema extensions : Document) (r : Registry) : Registry × List Event :=
  let s1 := match global schema extensions with
    | some xs => (merge r xs, true)
    | none => (r, false)
  let s2 := schema.definitions.foldl
    (fun (acc : Registry × Bool) d =>
      match perDef d schema extensions with
      | some xs => (merge acc.1 xs, true)
      | none => acc)
    s1
  let evs := { plugin := pname, hook := hidG, schema := schema, extensions := extensions : Event }
      :: perDefEvents pname hidP schema extensions
  (s2.1, if s2.2 then evs ++ updatePluginSchemas s2.1 else evs)

/-- A definition-adding sub-step with only a per-definition hook
(`processPluginTypeExtensionDefinitions`, `...QueryExtensionDefinitions`, ...). -/
def stepDefsPerOnly {α : Type} (pname : String) (hidP : HookId)
    (perDef : DefNode → Document → Document → Option (List α))
    (merge : Registry → List α → Registry)
    (schema extensions : Document) (r : Registry) : Registry × List Event :=
  let s2 := schema.definitions.foldl
    (fun (acc : Registry × Bool) d =>
      match perDef d schema extensions with
      | some xs => (merge acc.1 xs, true)
      | none => acc)
    (r, false)
  let evs := perDefEvents pname hidP schema extensions
  (s2.1, if s2.2 then evs ++ updatePluginSchemas s2.1 else evs)

/-- A resolver-adding sub-step with global and per-definition hooks
(`processPluginTypeResolvers`, ...): spread-merge outputs into the target
resolver map, no re-broadcast. -/
def stepResolvers (pname : String) (hidG hidP : HookId)
    (global : Document → Document → Option RMap)
    (perDef : DefNode → Document → Document → Option RMap)
    (upd : Registry → RMap → Registry)
    (schema extensions : Document) (r : Registry) : Registry × List Event :=
  let r1 := match global schema extensions with
    | some m => upd r m
    | none => r
  let r2 := schema.definitions.foldl
    (fun acc d =>
      match perDef d schema extensions with
      | some m => upd acc m
      | none => acc)
    r1
  (r2, { plugin := pname, hook := hidG, schema := schema, extensions := extensions : Event }
      :: perDefEvents pname hidP schema extensions)

/-- A resolver-adding sub-step with only a per-definition hook
(`processPluginTypeExtensionResolvers`, ...). -/
def stepResolversPerOnly (pname : String) (hidP : HookId)
    (perDef : DefNode → Document → Document → Option RMap)
    (upd : Registry → RMap → Registry)
    (schema extensions : Document) (r : Registry) : Registry × List Event :=
  let r2 := schema.definitions.foldl
    (fun acc d =>
      match perDef d schema extensions with
      | some m => upd acc m
      | none => acc)
    r
  (r2, perDefEvents pname hidP schema extensions)

/-- Model of `preProcessPluginUpdateTypes` / `postProcessPluginUpdateTypes`: offer
every definition to the rewrite hook, collect the replacements, and if any
were returned merge them back and re-broadcast. -/
def stepProps (pname : String) (hid : HookId)
    (hook : DefNode → Document → Document → Option DefNode)
    (schema extensions : Document) (r : Registry) : Registry × List Event :=
  let news := schema.definitions.foldl
    (fun (acc : List DefNode) d =>
      match hook d schema extensions with
      | some d2 => acc ++ [d2]
      | none => acc)
    []
  let evs := perDefEvents pname hid schema extensions
  if news.isEmpty then (r, evs)
  else
    let r := mergeIncomingTypes r news
    (r, evs ++ updatePluginSchemas r)

def updTypeResolvers (r : Registry) (m : RMap) : Registry :=
  { r with typeResolvers := objMerge r.typeResolvers m }
def updExtensionTypeResolvers (r : Registry) (m : RMap) : Registry :=
  { r with extensionTypeResolvers := objMerge r.extensionTypeResolvers m }
def updQueryResolvers (r : Registry) (m : RMap) : Registry :=
  { r with queryResolvers := objMerge r.queryResolvers m }
def updExtensionQueryResolvers (r : Registry) (m : RMap) : Registry :=
  { r with extensionQueryResolvers := objMerge r.extensionQueryResolvers m }
def updMutationResolvers (r : Registry) (m : RMap) : Registry :=
  { r with mutationResolvers := objMerge r.mutationResolvers m }
def updExtensionMutationResolvers (r : Registry) (m : RMap) : Registry :=
  { r with extensionMutationResolvers := objMerge r.extensionMutationResolvers m }
def updSubscriptionResolvers (r : Registry) (m : RMap) : Registry :=
  { r with subscriptionResolvers := objMerge r.subscriptionResolvers m }
def updExtensionSubscriptionResolvers (r : Registry) (m : RMap) : Registry :=
  { r with extensionSubscriptionResolvers := objMerge r.extensionSubscriptionResolvers m }

/-- Model of `processPluginDirectiveDefinitions`: global hook, merge, re-broadcast on
output. -/
def stepDirectiveDefs (p : Plugin) (schema extensions : Document) (r : Registry) :
    Registry × List Event :=
  let ev := { plugin := p.name, hook := .addDirectiveDefinitions,
              schema := schema, extensions := extensions : Event }
  match p.addDirectiveDefinitions schema extensions with
  | some ds =>
    let r := mergeIncomingDirectives r ds
    (r, [ev] ++ updatePluginSchemas r)
  | none => (r, [ev])

/-- Model of `processPluginDirectiveResolvers`: global hook, spread-merge, no
broadcast. -/
def stepDirectiveResolvers (p : Plugin) (schema extensions : Document) (r : Registry) :
    Registry × List Event :=
  let ev := { plugin := p.name, hook := .addDirectiveResolvers,
              schema := schema, extensions := extensions : Event }
  match p.addDirectiveResolvers schema extensions with
  | some m => ({ r with directiveResolvers := objMerge r.directiveResolvers m }, [ev])
  | none => (r, [ev])

/-- Sequencing of trace-producing registry steps. -/
def andThen (a : Registry × List Event) (f : Registry → Registry × List Event) :
    Registry × List Event :=
  ((f a.1).1, a.2 ++ (f a.1).2)

/-- One plugin's turn in the main phase: the documents are computed ONCE at
the start of the turn and passed unchanged to all sixteen sub-steps, in the
source's order. -/
def phase3Step (r : Registry) (p : Plugin) : Registry × List Event :=
  let schema := getDefinitionsDocument r
  let extensions := getExtensionDefinitionsDocument r
  let s := stepDefs p.name .addTypeDefinitions .addTypeDefinitionsForTypeDefinition
    p.addTypeDefinitions p.addTypeDefinitionsForTypeDefinition mergeIncomingTypes
    schema extensions r
  let s := andThen s (stepDefsPerOnly p.name .addTypeDefinitionExtensionsForTypeDefinition
    p.addTypeDefinitionExtensionsForTypeDefinition mergeIncomingExtensionTypes schema extensions)
  let s := andThen s (stepResolvers p.name .addTypeResolvers .addTypeResolversForTypeDefinition
    p.addTypeResolvers p.addTypeResolversForTypeDefinition updTypeResolvers schema extensions)
  let s := andThen s (stepResolversPerOnly p.name .addTypeResolverExtensionsForTypeDefinition
    p.addTypeResolverExtensionsForTypeDefinition updExtensionTypeResolvers schema extensions)
  let s := andThen s (stepDefs p.name .addQueryDefinitions .addQueryDefinitionsForTypeDefinition
    p.addQueryDefinitions p.addQueryDefinitionsForTypeDefinition mergeIncomingQueries
    schema extensions)
  let s := andThen s (stepDefsPerOnly p.name .addQueryDefinitionExtensionsForTypeDefinition
    p.addQueryDefinitionExtensionsForTypeDefinition mergeIncomingExtensionQueries schema extensions)
  let s := andThen s (stepResolvers p.name .addQueryResolvers .addQueryResolversForTypeDefinition
    p.addQueryResolvers p.addQueryResolversForTypeDefinition updQueryResolvers schema extensions)
  let s := andThen s (stepResolversPerOnly p.name .addQueryResolverExtensionsForTypeDefinition
    p.addQueryResolverExtensionsForTypeDefinition updExtensionQueryResolvers schema extensions)
  let s := andThen s (stepDefs p.name .addMutationDefinitions .addMutationDefinitionsForTypeDefinition
    p.addMutationDefinitions p.addMutationDefinitionsForTypeDefinition mergeIncomingMutations
    schema extensions)
  let s := andThen s (stepDefsPerOnly p.name .addMutationDefinitionExtensionsForTypeDefinition
    p.addMutationDefinitionExtensionsForTypeDefinition mergeIncomingExtensionMutations schema extensions)
  let s := andThen s (stepResolvers p.name .addMutationResolvers .addMutationResolversForTypeDefinition
    p.addMutationResolvers p.addMutationResolversForTypeDefinition updMutationResolvers schema extensions)
  let s := andThen s (stepResolversPerOnly p.name .addMutationResolverExtensionsForTypeDefinition
    p.addMutationResolverExtensionsForTypeDefinition updExtensionMutationResolvers schema extensions)
  let s := andThen s (stepDefs p.name .addSubscriptionDefinitions .addSubscriptionDefinitionsForTypeDefinition
    p.addSubscriptionDefinitions p.addSubscriptionDefinitionsForTypeDefinition mergeIncomingSubscriptions
    schema extensions)
  let s := andThen s (stepDefsPerOnly p.name .addSubscriptionDefinitionExtensionsForTypeDefinition
    p.addSubscriptionDefinitionExtensionsForTypeDefinition mergeIncomingExtensionSubscriptions schema extensions)
  let s := andThen s (stepResolvers p.name .addSubscriptionResolvers .addSubscriptionResolversForTypeDefinition
    p.addSubscriptionResolvers p.addSubscriptionResolversForTypeDefinition updSubscriptionResolvers schema extensions)
  andThen s (stepResolversPerOnly p.name .addSubscriptionResolverExtensionsForTypeDefinition
    p.addSubscriptionResolverExtensionsForTypeDefinition updExtensionSubscriptionResolvers schema extensions)

/-- One plugin's turn in the pre-property-rewrite phase: documents
recomputed fresh at the start of the turn. -/
def phase2Step (r : Registry) (p : Plugin) : Registry × List Event :=
  stepProps p.name .addPrePropertiesToTypeDefinition p.addPrePropertiesToTypeDefinition
    (getDefinitionsDocument r) (getExtensionDefinitionsDocument r) r

/-- One plugin's turn in the directive / post-rewrite phase: documents
recomputed fresh at the start of the turn, shared by the three sub-steps. -/
def phase4Step (r : Registry) (p : Plugin) : Registry × List Event :=
  let schema := getDefinitionsDocument r
  let extensions := getExtensionDefinitionsDocument r
  let s := stepDirectiveDefs p schema extensions r
  let s := andThen s (stepDirectiveResolvers p schema extensions)
  andThen s (stepProps p.name .addPostPropertiesToTypeDefinition
    p.addPostPropertiesToTypeDefinition schema extensions)

/-- Run one phase: iterate the plugins in registration order, threading the
registry and accumulating the trace. -/
def runSteps (step : Registry → Plugin → Registry × List Event)
    (r : Registry) (ps : List Plugin) : Registry × List Event :=
  ps.foldl (fun acc p => ((step acc.1 p).1, acc.2 ++ (step acc.1 p).2)) (r, [])

/-- The finalize loop: per plugin, `validateSchema` (a `false` result models
the hook raising, aborting the loop) then `setFinalSchema`. -/
def finalLoop (schema extensions : Document) : List Plugin → List Event × Bool
  | [] => ([], true)
  | p :: ps =>
    let ev := { plugin := p.name, hook := .validateSchema,
                schema := schema, extensions := extensions : Event }
    if p.validateSchema schema extensions then
      let rest := finalLoop schema extensions ps
      (ev :: { plugin := p.name, hook := .setFinalSchema,
               schema := schema, extensions := extensions : Event } :: rest.1,
       rest.2)
    else ([ev], false)

/-- The registry after the three store-mutating phases of the pipeline body
(pre-property rewrite, main phase, directive + post-property rewrite), run
over the plugins in registration order. -/
def pipelineCoreState (r : Registry) : Registry :=
  (runSteps phase4Step
    (runSteps phase3Step (runSteps phase2Step r r.plugins).1 r.plugins).1 r.plugins).1

/-- The finalize loop (validation + final-schema notification) over the
post-phase state, with documents recomputed once at the phase start. -/
def pipelineFinal (r : Registry) : List Event × Bool :=
  finalLoop (getDefinitionsDocument (pipelineCoreState r))
    (getExtensionDefinitionsDocument (pipelineCoreState r)) r.plugins

/-- The full hook-call trace of one pipeline body run: initial notification,
then the three phase traces, then the finalize-loop trace. -/
def pipelineTrace (r : Registry) : List Event :=
  (r.plugins.map (fun p =>
      { plugin := p.name, hook := .setInitialSchema,
        schema := getDefinitionsDocument r,
        extensions := getExtensionDefinitionsDocument r : Event }))
  ++ (runSteps phase2Step r r.plugins).2
  ++ (runSteps phase3Step (runSteps phase2Step r r.plugins).1 r.plugins).2
  ++ (runSteps phase4Step
        (runSteps phase3Step (runSteps phase2Step r r.plugins).1 r.plugins).1 r.plugins).2
  ++ (pipelineFinal r).1

/-- Model of `processPlugins`.  Returns the updated registry, the hook-call trace and
a success flag (`false` = a validation hook raised; the exception propagates
to the caller, and `hasProcessedPlugins` is left `false`).  A completed run
sets the one-shot flag, making every later call an immediate no-op. -/
def processPlugins (r : Registry) : Registry × List Event × Bool :=
  if r.hasProcessedPlugins then (r, [], true)
  else if (pipelineFinal r).2 then
    ({ pipelineCoreState r with hasProcessedPlugins := true }, pipelineTrace r, true)
  else (pipelineCoreState r, pipelineTrace r, false)

/-!  ## Setup hooks and finalization -/

/-- Interpretation environment for the opaque pre-start callback tokens. -/
abbrev Env := Nat → Registry → Registry

/-- Model of `preStart`: run every registered pre-start callback once, in order, then
set the one-shot flag; a no-op when the flag is already set. -/
def preStart (env : Env) (r : Registry) : Registry :=
  if r.hasExecutedPreStart then r
  else
    let r := r.preStartFunctions.foldl (fun s t => env t s) r
    { r with hasExecutedPreStart := true }

/-- The `directiveResolvers` application loop shared by `getFederatableSchema`
and `getExecutableSchema`: each registered transform applied in insertion
order. -/
def applyDirectiveResolvers (m : RMap) (a : Artifact) : Artifact :=
  m.foldl (fun a kv => Artifact.directiveApplied kv.2 a) a

/-- The remote-schema resolution loop shared by `getSchema` and
`getExecutableSchema`: wrap each descriptor's source (supplier first, then
eager schema) and cache the wrapped artifact on the descriptor. -/
def resolveRemotes (r : Registry) : Registry × List Artifact :=
  r.remoteSchemas.foldl
    (fun (acc : Registry × List Artifact) kv =>
      match kv.2.asyncSchema with
      | some s =>
        let w := Artifact.wrapped s kv.2.executor kv.2.transforms
        let rs := acc.1.remoteSchemas.map
          (fun e => if e.1 == kv.1 then (e.1, { e.2 with executable := some w }) else e)
        ({ acc.1 with remoteSchemas := rs }, acc.2 ++ [w])
      | none =>
        match kv.2.schema with
        | some s =>
          let w := Artifact.wrapped s kv.2.executor kv.2.transforms
          let rs := acc.1.remoteSchemas.map
            (fun e => if e.1 == kv.1 then (e.1, { e.2 with executable := some w }) else e)
          ({ acc.1 with remoteSchemas := rs }, acc.2 ++ [w])
        | none => acc)
    (r, [])

/-- Model of `getFederatableSchema`: setup once, pipeline once, compile base
declarations with resolvers, apply directive transforms; never cached.
`none` as artifact models the returned promise rejecting. -/
def getFederatableSchema (env : Env) (r : Registry) :
    Registry × Option Artifact × List Event :=
  let r := preStart env r
  let out := processPlugins r
  if out.2.2 then
    let localSchema := Artifact.compiled (getDefinitionsDocument out.1) (some (getResolvers out.1))
    (out.1, some (applyDirectiveResolvers out.1.directiveResolvers localSchema), out.2.1)
  else (out.1, none, out.2.1)

/-- Model of `getSchema`: setup once, pipeline once, compile base declarations
WITHOUT resolvers, stitch with the resolved remote schemas and the extension
document, no resolvers passed to the stitcher; never cached. -/
def getSchema (env : Env) (r : Registry) : Registry × Option Artifact × List Event :=
  let r := preStart env r
  let out := processPlugins r
  if out.2.2 then
    let localSchema := Artifact.compiled (getDefinitionsDocument out.1) none
    let rr := resolveRemotes out.1
    (rr.1,
     some (Artifact.stitched (localSchema :: rr.2) (getExtensionDefinitionsDocument rr.1) none),
     out.2.1)
  else (out.1, none, out.2.1)

/-- Model of `getExecutableSchema`: setup once, pipeline once; when no artifact is
cached, compile base declarations with resolvers, stitch with remotes,
extension document and extension resolvers, apply directive transforms, and
cache the result. -/
def getExecutableSchema (env : Env) (r : Registry) :
    Registry × Option Artifact × List Event :=
  let r := preStart env r
  let out := processPlugins r
  if out.2.2 then
    match out.1.executableSchema with
    | some a => (out.1, some a, out.2.1)
    | none =>
      let localSchema := Artifact.compiled (getDefinitionsDocument out.1) (some (getResolvers out.1))
      let rr := resolveRemotes out.1
      let g := Artifact.stitched (localSchema :: rr.2)
        (getExtensionDefinitionsDocument rr.1) (some (getExtensionResolvers rr.1))
      let g := applyDirectiveResolvers rr.1.directiveResolvers g
      ({ rr.1 with executableSchema := some g }, some g, out.2.1)
  else (out.1, none, out.2.1)

/-- Model of `getPlugin`: hard failure on absence. -/
def getPlugin (r : Registry) (name : String) : Except String Plugin :=
  match r.plugins.find? (fun p => p.name == name) with
  | some p => Except.ok p
  | none => Except.error ("Cannot find registry plugin with name " ++ name)

/-- Model of `getExecutor`: soft failure on absence. -/
def getExecutor (r : Registry) (name : String) : Option Nat :=
  match r.remoteSchemas.find? (fun kv => kv.1 == name) with
  | some kv => some kv.2.executor
  | none => none

/-!  ## Concrete instances used by witnesses and counterexamples -/

/-- Environment interpreting every pre-start callback token as a no-op. -/
def env0 : Env := fun _ r => r

def c3A : DefNode := { kind := .objectTypeDefinition, name := "A" }
def c3B : DefNode := { kind := .objectTypeDefinition, name := "B" }
def c3F : FieldDef := { kind := .fieldDefinition, name := "oneBook" }
def c3Reg : Registry :=
  { emptyRegistry with
      typeDefinitions := [c3A]
      queryDefinitions := [{ kind := .fieldDefinition, name := "allBooks" }] }

def c4A : DefNode := { kind := .objectTypeDefinition, name := "A" }
def c4B : DefNode := { kind := .objectTypeDefinition, name := "B" }

def c5Reg : Registry :=
  { emptyRegistry with preStartFunctions := [7], hasExecutedPreStart := true }

def c8P1 : Plugin := { name := "dup" }
def c8P2 : Plugin := { name := "dup", addTypeDefinitions := fun _ _ => some [c4A] }
def c8Reg : Registry := registerPlugin emptyRegistry c8P1

def c10Doc : Document :=
  { definitions := [{ kind := .objectTypeDefinition, name := "NotQuery" },
                    { kind := .scalarTypeDefinition, name := "Date" }] }
def c10Args : RegisterTypeArgs := { queryDefinitions := some c10Doc }

def cT : DefNode := { kind := .objectTypeDefinition, name := "T" }
def c2P : Plugin := { name := "P", addTypeDefinitions := fun _ _ => some [cT] }
def c2Reg : Registry := { emptyRegistry with plugins := [c2P] }
def c2P1 : Plugin := { name := "P1", addTypeDefinitions := fun _ _ => some [cT] }
def c2P2 : Plugin := { name := "P2" }
def c2wReg : Registry := { emptyRegistry with plugins := [c2P1, c2P2] }
def c2Ev : Event :=
  { plugin := "P2", hook := .addTypeDefinitions,
    schema := { definitions := [cT] }, extensions := { definitions := [] } }

def c1T : DefNode := { kind := .objectTypeDefinition, name := "Counted" }
def c1P : Plugin := { name := "counter", addTypeDefinitions := fun _ _ => some [c1T] }
def c1Reg : Registry := registerPlugin emptyRegistry c1P
def c1Reg1 : Registry := (getExecutableSchema env0 c1Reg).1

def c6Rem : RemoteDescriptor := { name := "R", schema := some 5, executor := 1 }
def c6Reg : Registry :=
  { emptyRegistry with
      remoteSchemas := [("R", c6Rem)]
      hasExecutedPreStart := true
      hasProcessedPlugins := true }

def c7P : Plugin := { name := "V", validateSchema := fun _ _ => false }
def c7Reg : Registry :=
  { emptyRegistry with hasExecutedPreStart := true, plugins := [c7P] }

/-- All hook-call events of one main-phase turn either are `schemaUpdated`
re-broadcasts (which carry freshly recomputed documents) or carry exactly
the documents computed at the start of the turn. -/
def TurnEvents (schema extensions : Document) (evs : List Event) : Prop :=
  ∀ e ∈ evs, e.hook = HookId.schemaUpdated ∨ (e.schema = schema ∧ e.extensions = extensions)

/-- Predicate: `s` agrees with `r` on the fields the pipeline body never writes: the
cached artifact, the plugin list and the two one-shot flags. -/
def MetaEq (r s : Registry) : Prop :=
  s.executableSchema = r.executableSchema ∧ s.plugins = r.plugins
  ∧ s.hasProcessedPlugins = r.hasProcessedPlugins
  ∧ s.hasExecutedPreStart = r.hasExecutedPreStart

/-!  ## Merge Engine lemmas -/

/-- After erasing the entry with key `n` from a store whose keys are
pairwise distinct, no entry with key `n` remains. -/
lemma key_not_mem_eraseP {β : Type} (key : β → String) {l : List β} {n : String}
    (h : (l.map key).Nodup) :
    ∀ x ∈ l.eraseP (fun q => key q == n), (key x == n) = false := by
  induction l with
  | nil => simp
  | cons a t ih =>
    have h2 : key a ∉ t.map key ∧ (t.map key).Nodup := by
      simpa [List.nodup_cons] using h
    by_cases hp : (key a == n) = true
    · have he : List.eraseP (fun q => key q == n) (a :: t) = t :=
        List.eraseP_cons_of_pos hp
      rw [he]
      intro x hx
      have hxa : key x ∈ t.map key := List.mem_map_of_mem key hx
      rcases Bool.eq_false_or_eq_true (key x == n) with ht | hf
      · exact absurd (by rw [eq_of_beq hp, ← eq_of_beq ht]; exact hxa) h2.1
      · exact hf
    · have he : List.eraseP (fun q => key q == n) (a :: t)
          = a :: List.eraseP (fun q => key q == n) t :=
        List.eraseP_cons_of_neg hp
      rw [he]
      intro x hx
      rcases List.mem_cons.mp hx with hxa | hxt
      · subst hxa; simpa using hp
      · exact ih h2.2 x hxt

/-- Effect of `upsertBy` on a single incoming item. -/
lemma upsertBy_singleton {β : Type} (keep : β → Bool) (key : β → String)
    (store : List β) (d : β) :
    upsertBy keep key store [d]
      = if keep d then (store.eraseP (fun q => key q == key d)) ++ [d] else store := by
  simp [upsertBy]

/-- One upsert step preserves key uniqueness. -/
lemma upsertBy_step_nodup {β : Type} (keep : β → Bool) (key : β → String)
    {store : List β} (d : β) (h : (store.map key).Nodup) :
    (((if keep d then (store.eraseP (fun q => key q == key d)) ++ [d] else store)).map key).Nodup := by
  by_cases hk : keep d
  · rw [if_pos hk, List.map_append]
    have hsub : ((store.eraseP (fun q => key q == key d)).map key).Sublist (store.map key) :=
      (List.eraseP_sublist store).map key
    refine List.nodup_append.mpr ⟨h.sublist hsub, List.nodup_singleton _, ?_⟩
    intro x hx
    rcases List.mem_map.mp hx with ⟨q, hq, hqx⟩
    have := key_not_mem_eraseP key h q hq
    simp only [List.map_cons, List.map_nil, List.mem_singleton]
    intro hxd
    rw [hxd] at hqx
    exact absurd hqx (by simpa using this)
  · rwa [if_neg hk]

/-- Key fact: `upsertBy` preserves key uniqueness across any incoming sequence. -/
lemma upsertBy_nodup {β : Type} (keep : β → Bool) (key : β → String)
    {store : List β} (incoming : List β) (h : (store.map key).Nodup) :
    ((upsertBy keep key store incoming).map key).Nodup := by
  induction incoming generalizing store with
  | nil => simpa [upsertBy] using h
  | cons d ds ih =>
    have hstep : upsertBy keep key store (d :: ds)
        = upsertBy keep key
            (if keep d then (store.eraseP (fun q => key q == key d)) ++ [d] else store) ds := rfl
    rw [hstep]
    exact ih (upsertBy_step_nodup keep key d h)

/-- C3: names stay unique within a category under the Merge Engine, and a
merged item evicts the previous entry of its name and lands at the tail.
Stated for the type store (`mergeIncomingTypes`) and the query store
(`mergeIncomingQueries`), the two categories the claim cites; both are
instances of the shared `upsertBy` core used by every category. -/
theorem c3_merge_unique_latest (r : Registry) (ds : List DefNode) (fs : List FieldDef)
    (d : DefNode) (f : FieldDef)
    (hT : (r.typeDefinitions.map DefNode.name).Nodup)
    (hQ : (r.queryDefinitions.map FieldDef.name).Nodup) :
    ((mergeIncomingTypes r ds).typeDefinitions.map DefNode.name).Nodup
    ∧ ((mergeIncomingQueries r fs).queryDefinitions.map FieldDef.name).Nodup
    ∧ (isTypeDefinitionNode d = true →
        (mergeIncomingTypes r [d]).typeDefinitions
          = (r.typeDefinitions.eraseP (fun q => q.name == d.name)) ++ [d])
    ∧ (f.kind = NodeKind.fieldDefinition →
        (mergeIncomingQueries r [f]).queryDefinitions
          = (r.queryDefinitions.eraseP (fun q => q.name == f.name)) ++ [f]) := by
  refine ⟨upsertBy_nodup _ _ ds hT, upsertBy_nodup _ _ fs hQ, ?_, ?_⟩
  · intro hd
    show upsertTypeDefs r.typeDefinitions [d] = _
    rw [upsertTypeDefs, upsertBy_singleton, if_pos hd]
  · intro hf
    show upsertFieldDefs r.queryDefinitions [f] = _
    rw [upsertFieldDefs, upsertBy_singleton, if_pos (by simp [hf])]

/-- Concrete check of `c3_merge_unique_latest`: a one-type, one-query store,
fresh and colliding incoming items. -/
theorem c3_merge_unique_latest_witness :
    ((mergeIncomingTypes c3Reg [c3B, c3A]).typeDefinitions.map DefNode.name).Nodup
    ∧ ((mergeIncomingQueries c3Reg [c3F]).queryDefinitions.map FieldDef.name).Nodup
    ∧ (isTypeDefinitionNode c3A = true →
        (mergeIncomingTypes c3Reg [c3A]).typeDefinitions
          = (c3Reg.typeDefinitions.eraseP (fun q => q.name == c3A.name)) ++ [c3A])
    ∧ (c3F.kind = NodeKind.fieldDefinition →
        (mergeIncomingQueries c3Reg [c3F]).queryDefinitions
          = (c3Reg.queryDefinitions.eraseP (fun q => q.name == c3F.name)) ++ [c3F]) :=
  c3_merge_unique_latest c3Reg [c3B, c3A] [c3F] c3A c3F (by decide) (by decide)

/-- C4 counterexample: registering type A, then A again, then type B leaves
the type sequence `[A, B]` — A strictly BEFORE B — not the claimed final
relative order `[..., B, A]`. -/
theorem c4_counterexample :
    (mergeIncomingTypes (mergeIncomingTypes (mergeIncomingTypes emptyRegistry [c4A]) [c4A])
        [c4B]).typeDefinitions = [c4A, c4B]
    ∧ [c4A, c4B].indexOf c4A < [c4A, c4B].indexOf c4B := by
  exact ⟨by decide, by decide⟩

/-- Splitting step for `c4_amended_tail_move`: erasing by b's name from a
store ending in `a` (where the prefix is free of a's name) keeps the
trailing `a` and keeps the prefix free of a's name. -/
lemma eraseP_keep_last {a b : DefNode} (hab : a.name ≠ b.name) (t : List DefNode)
    (ht : ∀ x ∈ t, (x.name == a.name) = false) :
    ∃ X : List DefNode,
      (t ++ [a]).eraseP (fun q => q.name == b.name) = X ++ [a]
      ∧ ∀ x ∈ X, (x.name == a.name) = false := by
  rw [List.eraseP_append]
  by_cases hpb : t.any (fun q => q.name == b.name) = true
  · rw [if_pos hpb]
    exact ⟨t.eraseP (fun q => q.name == b.name), rfl,
      fun x hx => ht x ((List.eraseP_sublist t).subset hx)⟩
  · rw [if_neg hpb]
    refine ⟨t, ?_, ht⟩
    have hone : List.eraseP (fun q => q.name == b.name) [a] = [a] :=
      List.eraseP_of_forall_not (by simp [hab])
    rw [hone]

/-- C4 (amended): re-registration moves the entry to the tail at the moment
of re-registration.  The claim's register order A, A, B therefore ends
`[..., A, B]`; the order that exhibits the claimed final suffix
`[..., B, A]` is A, then B, then A again. -/
theorem c4_amended_tail_move (r : Registry) (a b : DefNode)
    (hN : (r.typeDefinitions.map DefNode.name).Nodup)
    (ha : isTypeDefinitionNode a = true)
    (hb : isTypeDefinitionNode b = true)
    (hab : a.name ≠ b.name) :
    (∃ pre, (mergeIncomingTypes (mergeIncomingTypes (mergeIncomingTypes r [a]) [a])
        [b]).typeDefinitions = pre ++ [a, b])
    ∧ (∃ pre, (mergeIncomingTypes (mergeIncomingTypes (mergeIncomingTypes r [a]) [b])
        [a]).typeDefinitions = pre ++ [b, a]) := by
  have hnomem : ∀ x ∈ r.typeDefinitions.eraseP (fun q => q.name == a.name),
      (x.name == a.name) = false := key_not_mem_eraseP DefNode.name hN
  have e1 : upsertTypeDefs r.typeDefinitions [a]
      = (r.typeDefinitions.eraseP (fun q => q.name == a.name)) ++ [a] := by
    rw [upsertTypeDefs, upsertBy_singleton, if_pos ha]
  have eaa : ∀ t : List DefNode, (∀ x ∈ t, (x.name == a.name) = false) →
      upsertTypeDefs (t ++ [a]) [a] = t ++ [a] := by
    intro t ht
    have hany : t.any (fun q => q.name == a.name) = false := by
      rw [List.any_eq_false]
      intro x hx
      simp [ht x hx]
    rw [upsertTypeDefs, upsertBy_singleton, if_pos ha, List.eraseP_append,
      if_neg (by simp [hany]),
      List.eraseP_cons_of_pos (by simp), List.append_nil]
  constructor
  · -- register a, a, b
    show ∃ pre, upsertTypeDefs (upsertTypeDefs (upsertTypeDefs r.typeDefinitions [a]) [a]) [b]
        = pre ++ [a, b]
    rw [e1, eaa _ hnomem]
    rw [upsertTypeDefs, upsertBy_singleton, if_pos hb]
    obtain ⟨X, hX, _⟩ := eraseP_keep_last hab _ hnomem
    exact ⟨X, by rw [hX, List.append_assoc]; rfl⟩
  · -- register a, b, a
    show ∃ pre, upsertTypeDefs (upsertTypeDefs (upsertTypeDefs r.typeDefinitions [a]) [b]) [a]
        = pre ++ [b, a]
    rw [e1]
    have e2 : upsertTypeDefs
        ((r.typeDefinitions.eraseP (fun q => q.name == a.name)) ++ [a]) [b]
        = ((r.typeDefinitions.eraseP (fun q => q.name == a.name)) ++ [a]).eraseP
            (fun q => q.name == b.name) ++ [b] := by
      rw [upsertTypeDefs, upsertBy_singleton, if_pos hb]
    rw [e2]
    obtain ⟨X, hX, hXfree⟩ := eraseP_keep_last hab _ hnomem
    rw [hX]
    rw [upsertTypeDefs, upsertBy_singleton, if_pos ha]
    have hsplit : (X ++ [a] ++ [b]).eraseP (fun q => q.name == a.name) = X ++ [b] := by
      have hany : X.any (fun q => q.name == a.name) = false := by
        rw [List.any_eq_false]
        intro x hx
        simp [hXfree x hx]
      rw [List.append_assoc, List.eraseP_append, if_neg (by simp [hany]),
        List.singleton_append, List.eraseP_cons_of_pos (by simp)]
    rw [hsplit]
    exact ⟨X, by rw [List.append_assoc]; rfl⟩

/-- Concrete check of `c4_amended_tail_move` on an initially empty store. -/
theorem c4_amended_tail_move_witness :
    (∃ pre, (mergeIncomingTypes (mergeIncomingTypes (mergeIncomingTypes emptyRegistry [c4A])
        [c4A]) [c4B]).typeDefinitions = pre ++ [c4A, c4B])
    ∧ (∃ pre, (mergeIncomingTypes (mergeIncomingTypes (mergeIncomingTypes emptyRegistry [c4A])
        [c4B]) [c4A]).typeDefinitions = pre ++ [c4B, c4A]) :=
  c4_amended_tail_move emptyRegistry c4A c4B (by decide) (by decide) (by decide) (by decide)

/-- C5 counterexample: `clear` leaves the registered pre-start function list
non-empty and the setup-executed one-shot flag set, contradicting the claim
that the pre-start functions are emptied and both flags reset. -/
theorem c5_counterexample :
    ¬ ((clear c5Reg).1.preStartFunctions = []
       ∧ (clear c5Reg).1.hasExecutedPreStart = false) := by
  decide

/-- C5 (amended): `clear` empties every declaration sequence, every resolver
map, the remote descriptors, internal values and data sources, resets the
pipeline-processed flag, drops the cached executable schema, and notifies
every registered plugin via its clear hook — but it leaves the registered
pre-start functions, the setup-executed flag and the plugin list untouched. -/
theorem c5_amended_clear (r : Registry) :
    (clear r).1.remoteSchemas = []
    ∧ (clear r).1.directiveDefinitions = [] ∧ (clear r).1.directiveResolvers = []
    ∧ (clear r).1.typeDefinitions = [] ∧ (clear r).1.queryDefinitions = []
    ∧ (clear r).1.mutationDefinitions = [] ∧ (clear r).1.subscriptionDefinitions = []
    ∧ (clear r).1.typeResolvers = [] ∧ (clear r).1.queryResolvers = []
    ∧ (clear r).1.mutationResolvers = [] ∧ (clear r).1.subscriptionResolvers = []
    ∧ (clear r).1.extensionTypeDefinitions = [] ∧ (clear r).1.extensionQueryDefinitions = []
    ∧ (clear r).1.extensionMutationDefinitions = [] ∧ (clear r).1.extensionSubscriptionDefinitions = []
    ∧ (clear r).1.extensionTypeResolvers = [] ∧ (clear r).1.extensionQueryResolvers = []
    ∧ (clear r).1.extensionMutationResolvers = [] ∧ (clear r).1.extensionSubscriptionResolvers = []
    ∧ (clear r).1.internalValues = [] ∧ (clear r).1.executableSchema = none
    ∧ (clear r).1.dataSources = [] ∧ (clear r).1.hasProcessedPlugins = false
    ∧ (clear r).2 = r.plugins.map Plugin.name
    ∧ (clear r).1.preStartFunctions = r.preStartFunctions
    ∧ (clear r).1.hasExecutedPreStart = r.hasExecutedPreStart
    ∧ (clear r).1.plugins = r.plugins :=
  ⟨rfl, rfl, rfl, rfl, rfl, rfl, rfl, rfl, rfl, rfl, rfl, rfl, rfl, rfl,
   rfl, rfl, rfl, rfl, rfl, rfl, rfl, rfl, rfl, rfl, rfl, rfl, rfl⟩

/-- C8: registering a plugin under an already-registered name leaves the
registry completely unchanged — the second plugin is not added, its
back-reference assignment never happens (it occurs only on the append
branch), and since the pipeline is a function of the registry alone, none of
the second plugin's hooks can ever fire. -/
theorem c8_second_registration_ignored (r : Registry) (p : Plugin)
    (h : (r.plugins.find? (fun q => q.name == p.name)).isSome = true) :
    registerPlugin r p = r
    ∧ processPlugins (registerPlugin r p) = processPlugins r := by
  obtain ⟨q, hq⟩ := Option.isSome_iff_exists.mp h
  have hreg : registerPlugin r p = r := by
    unfold registerPlugin
    rw [hq]
  exact ⟨hreg, by rw [hreg]⟩

/-- Concrete check of `c8_second_registration_ignored`: a second plugin named
`dup` (with a type-add hook) is ignored. -/
theorem c8_second_registration_ignored_witness :
    registerPlugin c8Reg c8P2 = c8Reg
    ∧ processPlugins (registerPlugin c8Reg c8P2) = processPlugins c8Reg :=
  c8_second_registration_ignored c8Reg c8P2 (by decide)

/-- C9: the assembled base and extension documents are the stored type
(extension) declarations followed by the directive declarations, followed by
one synthesized operation container per category — present exactly when that
category's field sequence is non-empty. -/
theorem c9_container_only_when_nonempty (r : Registry) :
    (getDefinitionsDocument r).definitions
      = r.typeDefinitions ++ r.directiveDefinitions
        ++ (if r.queryDefinitions.isEmpty then []
            else [{ kind := .objectTypeDefinition, name := "Query", fields := r.queryDefinitions }])
        ++ (if r.mutationDefinitions.isEmpty then []
            else [{ kind := .objectTypeDefinition, name := "Mutation", fields := r.mutationDefinitions }])
        ++ (if r.subscriptionDefinitions.isEmpty then []
            else [{ kind := .objectTypeDefinition, name := "Subscription", fields := r.subscriptionDefinitions }])
    ∧ (getExtensionDefinitionsDocument r).definitions
      = r.extensionTypeDefinitions ++ r.directiveDefinitions
        ++ (if r.extensionQueryDefinitions.isEmpty then []
            else [{ kind := .objectTypeExtension, name := "Query", fields := r.extensionQueryDefinitions }])
        ++ (if r.extensionMutationDefinitions.isEmpty then []
            else [{ kind := .objectTypeExtension, name := "Mutation", fields := r.extensionMutationDefinitions }])
        ++ (if r.extensionSubscriptionDefinitions.isEmpty then []
            else [{ kind := .objectTypeExtension, name := "Subscription", fields := r.extensionSubscriptionDefinitions }]) := by
  constructor
  · simp only [getDefinitionsDocument]
    split_ifs <;> simp [List.append_assoc]
  · simp only [getExtensionDefinitionsDocument]
    split_ifs <;> simp [List.append_assoc]

/-- C10: `registerType` stores, per operation category, exactly the fields
of the first `ObjectTypeDefinition` named Query / Mutation / Subscription of
the corresponding supplied document (merged through the Merge Engine);
every other definition of those documents is ignored, and when no such
object type is present (or no document is supplied) the store is unchanged. -/
theorem c10_register_type_operation_extraction (r : Registry) (args : RegisterTypeArgs) :
    ((registerType r args).queryDefinitions
        = upsertFieldDefs r.queryDefinitions (operationFields "Query" args.queryDefinitions)
      ∧ (registerType r args).mutationDefinitions
        = upsertFieldDefs r.mutationDefinitions (operationFields "Mutation" args.mutationDefinitions)
      ∧ (registerType r args).subscriptionDefinitions
        = upsertFieldDefs r.subscriptionDefinitions (operationFields "Subscription" args.subscriptionDefinitions))
    ∧ (∀ doc, args.queryDefinitions = some doc →
        doc.definitions.find?
          (fun df => df.kind == NodeKind.objectTypeDefinition && df.name == "Query") = none →
        (registerType r args).queryDefinitions = r.queryDefinitions)
    ∧ (args.queryDefinitions = none →
        (registerType r args).queryDefinitions = r.queryDefinitions) := by
  obtain ⟨td, qd, md, sd, tr, qr, mr, sr⟩ := args
  have hq : (registerType r ⟨td, qd, md, sd, tr, qr, mr, sr⟩).queryDefinitions
      = upsertFieldDefs r.queryDefinitions (operationFields "Query" qd) := by
    cases td <;> rfl
  have hm : (registerType r ⟨td, qd, md, sd, tr, qr, mr, sr⟩).mutationDefinitions
      = upsertFieldDefs r.mutationDefinitions (operationFields "Mutation" md) := by
    cases td <;> rfl
  have hs : (registerType r ⟨td, qd, md, sd, tr, qr, mr, sr⟩).subscriptionDefinitions
      = upsertFieldDefs r.subscriptionDefinitions (operationFields "Subscription" sd) := by
    cases td <;> rfl
  refine ⟨⟨hq, hm, hs⟩, ?_, ?_⟩
  · intro doc hdoc hfind
    subst hdoc
    rw [hq]
    show upsertFieldDefs r.queryDefinitions
        (match doc.definitions.find?
          (fun df => df.kind == NodeKind.objectTypeDefinition && df.name == "Query") with
        | some df => df.fields
        | none => []) = r.queryDefinitions
    rw [hfind]
    rfl
  · intro hnone
    subst hnone
    rw [hq]
    rfl

/-- Concrete check of `c10_register_type_operation_extraction`: a query
document with no `Query` object type leaves the query store unchanged. -/
theorem c10_register_type_operation_extraction_witness :
    (registerType emptyRegistry c10Args).queryDefinitions = emptyRegistry.queryDefinitions :=
  (c10_register_type_operation_extraction emptyRegistry c10Args).2.1 c10Doc rfl (by decide)

/-!  ## Main-phase document-freshness lemmas (for C2) -/

lemma foldl_preserve {σ α : Type} (P : σ → Prop) (f : σ → α → σ) (l : List α) (s : σ)
    (h0 : P s) (hstep : ∀ b a, P b → P (f b a)) : P (l.foldl f s) := by
  induction l generalizing s with
  | nil => exact h0
  | cons a t ih => exact ih (f s a) (hstep s a h0)

lemma turnEvents_nil {sch ext : Document} : TurnEvents sch ext [] :=
  fun e he => absurd he (List.not_mem_nil e)

lemma turnEvents_append {sch ext : Document} {l1 l2 : List Event}
    (h1 : TurnEvents sch ext l1) (h2 : TurnEvents sch ext l2) :
    TurnEvents sch ext (l1 ++ l2) :=
  fun e he => (List.mem_append.mp he).elim (h1 e) (h2 e)

lemma turnEvents_cons {sch ext : Document} {e0 : Event} {l : List Event}
    (h0 : e0.hook = HookId.schemaUpdated ∨ (e0.schema = sch ∧ e0.extensions = ext))
    (h : TurnEvents sch ext l) : TurnEvents sch ext (e0 :: l) := by
  intro e he
  rcases List.mem_cons.mp he with rfl | he2
  · exact h0
  · exact h e he2

lemma turnEvents_ite {sch ext : Document} {c : Prop} [Decidable c] {l1 l2 : List Event}
    (h1 : TurnEvents sch ext l1) (h2 : TurnEvents sch ext l2) :
    TurnEvents sch ext (if c then l1 else l2) := by
  by_cases hc : c
  · rwa [if_pos hc]
  · rwa [if_neg hc]

lemma turnEvents_perDefEvents {sch ext : Document} {pn : String} {hid : HookId} :
    TurnEvents sch ext (perDefEvents pn hid sch ext) := by
  intro e he
  rcases List.mem_map.mp he with ⟨d, _, rfl⟩
  exact Or.inr ⟨rfl, rfl⟩

lemma turnEvents_updatePluginSchemas {sch ext : Document} {r : Registry} :
    TurnEvents sch ext (updatePluginSchemas r) := by
  intro e he
  rcases List.mem_map.mp he with ⟨p, _, rfl⟩
  exact Or.inl rfl

lemma turnEvents_stepDefs {α : Type} {pn : String} {hg hp : HookId}
    {g : Document → Document → Option (List α)}
    {pd : DefNode → Document → Document → Option (List α)}
    {m : Registry → List α → Registry} {sch ext : Document} {r : Registry} :
    TurnEvents sch ext (stepDefs pn hg hp g pd m sch ext r).2 := by
  unfold stepDefs
  exact turnEvents_ite
    (turnEvents_append
      (turnEvents_cons (Or.inr ⟨rfl, rfl⟩) turnEvents_perDefEvents)
      turnEvents_updatePluginSchemas)
    (turnEvents_cons (Or.inr ⟨rfl, rfl⟩) turnEvents_perDefEvents)

lemma turnEvents_stepDefsPerOnly {α : Type} {pn : String} {hp : HookId}
    {pd : DefNode → Document → Document → Option (List α)}
    {m : Registry → List α → Registry} {sch ext : Document} {r : Registry} :
    TurnEvents sch ext (stepDefsPerOnly pn hp pd m sch ext r).2 := by
  unfold stepDefsPerOnly
  exact turnEvents_ite
    (turnEvents_append turnEvents_perDefEvents turnEvents_updatePluginSchemas)
    turnEvents_perDefEvents

lemma turnEvents_stepResolvers {pn : String} {hg hp : HookId}
    {g : Document → Document → Option RMap}
    {pd : DefNode → Document → Document → Option RMap}
    {upd : Registry → RMap → Registry} {sch ext : Document} {r : Registry} :
    TurnEvents sch ext (stepResolvers pn hg hp g pd upd sch ext r).2 := by
  unfold stepResolvers
  exact turnEvents_cons (Or.inr ⟨rfl, rfl⟩) turnEvents_perDefEvents

lemma turnEvents_stepResolversPerOnly {pn : String} {hp : HookId}
    {pd : DefNode → Document → Document → Option RMap}
    {upd : Registry → RMap → Registry} {sch ext : Document} {r : Registry} :
    TurnEvents sch ext (stepResolversPerOnly pn hp pd upd sch ext r).2 := by
  unfold stepResolversPerOnly
  exact turnEvents_perDefEvents

lemma turnEvents_andThen {sch ext : Document} {a : Registry × List Event}
    {f : Registry → Registry × List Event}
    (h1 : TurnEvents sch ext a.2) (h2 : ∀ s, TurnEvents sch ext (f s).2) :
    TurnEvents sch ext (andThen a f).2 :=
  turnEvents_append h1 (h2 a.1)

/-- Every event of one plugin's main-phase turn is either a fresh
re-broadcast or carries exactly the documents computed from the store at
the start of the turn. -/
lemma turnEvents_phase3Step (r : Registry) (p : Plugin) :
    TurnEvents (getDefinitionsDocument r) (getExtensionDefinitionsDocument r)
      (phase3Step r p).2 := by
  unfold phase3Step
  refine turnEvents_andThen ?_ (fun s => turnEvents_stepResolversPerOnly)
  refine turnEvents_andThen ?_ (fun s => turnEvents_stepResolvers)
  refine turnEvents_andThen ?_ (fun s => turnEvents_stepDefsPerOnly)
  refine turnEvents_andThen ?_ (fun s => turnEvents_stepDefs)
  refine turnEvents_andThen ?_ (fun s => turnEvents_stepResolversPerOnly)
  refine turnEvents_andThen ?_ (fun s => turnEvents_stepResolvers)
  refine turnEvents_andThen ?_ (fun s => turnEvents_stepDefsPerOnly)
  refine turnEvents_andThen ?_ (fun s => turnEvents_stepDefs)
  refine turnEvents_andThen ?_ (fun s => turnEvents_stepResolversPerOnly)
  refine turnEvents_andThen ?_ (fun s => turnEvents_stepResolvers)
  refine turnEvents_andThen ?_ (fun s => turnEvents_stepDefsPerOnly)
  refine turnEvents_andThen ?_ (fun s => turnEvents_stepDefs)
  refine turnEvents_andThen ?_ (fun s => turnEvents_stepResolversPerOnly)
  refine turnEvents_andThen ?_ (fun s => turnEvents_stepResolvers)
  refine turnEvents_andThen ?_ (fun s => turnEvents_stepDefsPerOnly)
  exact turnEvents_stepDefs

/-- C2 counterexample: during ONE plugin's main-phase turn, the documents
are NOT recomputed before every sub-step.  With a single plugin `P` whose
global type-add hook contributes type `T`, the trace of `processPlugins`
shows the re-broadcast at index 2 already carrying `T` (the merge happened),
while the later `addQueryDefinitions` sub-step at index 4 of the same turn
still receives the document computed at the start of the turn, without `T` —
so that hook does not observe the cumulative effect of the prior hook. -/
theorem c2_counterexample :
    ((processPlugins c2Reg).2.1)[2]?
      = some { plugin := "P", hook := .schemaUpdated,
               schema := { definitions := [cT] }, extensions := { definitions := [] } }
    ∧ ((processPlugins c2Reg).2.1)[4]?
      = some { plugin := "P", hook := .addQueryDefinitions,
               schema := { definitions := [] }, extensions := { definitions := [] } }
    ∧ cT ∉ ({ definitions := [] } : Document).definitions
    ∧ cT ∈ (processPlugins c2Reg).1.typeDefinitions := by
  exact ⟨by decide, by decide, by decide, by decide⟩

/-- C2 (amended): during the main phase the documents are recomputed fresh
from the Declaration Store at the start of each plugin's turn (not before
every sub-step): the phase processes plugins left to right, and every
non-re-broadcast hook call of a later plugin's turn carries exactly the
documents recomputed from the state left by all earlier plugins' turns — so
a plugin registered after another does observe the types the earlier plugin
added; only the sub-steps within a single plugin's own turn share that
turn's documents. -/
theorem c2_per_plugin_recompute (r : Registry) (ps : List Plugin) (p : Plugin) :
    runSteps phase3Step r (ps ++ [p])
      = ((phase3Step (runSteps phase3Step r ps).1 p).1,
         (runSteps phase3Step r ps).2 ++ (phase3Step (runSteps phase3Step r ps).1 p).2)
    ∧ ∀ e ∈ (phase3Step (runSteps phase3Step r ps).1 p).2,
        e.hook = HookId.schemaUpdated
        ∨ (e.schema = getDefinitionsDocument (runSteps phase3Step r ps).1
           ∧ e.extensions = getExtensionDefinitionsDocument (runSteps phase3Step r ps).1) := by
  constructor
  · simp only [runSteps, List.foldl_append, List.foldl_cons, List.foldl_nil]
  · exact turnEvents_phase3Step (runSteps phase3Step r ps).1 p

/-- Concrete check of `c2_per_plugin_recompute`: plugin P1 adds type `T` in
its turn; the `addTypeDefinitions` call of the later plugin P2 carries a
document that contains `T`. -/
theorem c2_per_plugin_recompute_witness :
    (c2Ev ∈ (phase3Step (runSteps phase3Step c2wReg [c2P1]).1 c2P2).2
      ∧ (c2Ev.hook = HookId.schemaUpdated
         ∨ (c2Ev.schema = getDefinitionsDocument (runSteps phase3Step c2wReg [c2P1]).1
            ∧ c2Ev.extensions
              = getExtensionDefinitionsDocument (runSteps phase3Step c2wReg [c2P1]).1)))
    ∧ cT ∈ c2Ev.schema.definitions :=
  ⟨⟨by decide, (c2_per_plugin_recompute c2wReg [c2P1] c2P2).2 c2Ev (by decide)⟩, by decide⟩

/-!  ## Pipeline-body preservation lemmas (for C1, C7) -/

lemma metaEq_refl (r : Registry) : MetaEq r r := ⟨rfl, rfl, rfl, rfl⟩

lemma metaEq_trans {a b c : Registry} (h1 : MetaEq a b) (h2 : MetaEq b c) : MetaEq a c :=
  ⟨h2.1.trans h1.1, h2.2.1.trans h1.2.1, h2.2.2.1.trans h1.2.2.1, h2.2.2.2.trans h1.2.2.2⟩

lemma metaEq_mergeIncomingExtensionTypes (s : Registry) (xs : List DefNode) :
    MetaEq s (mergeIncomingExtensionTypes s xs) := by
  unfold mergeIncomingExtensionTypes
  refine foldl_preserve (MetaEq s) _ xs s (metaEq_refl s) ?_
  intro b d hb
  dsimp only
  split_ifs
  · exact metaEq_trans hb ⟨rfl, rfl, rfl, rfl⟩
  · exact metaEq_trans hb ⟨rfl, rfl, rfl, rfl⟩
  · exact hb

lemma metaEq_stepDefs {α : Type} {pn : String} {hg hp : HookId}
    {g : Document → Document → Option (List α)}
    {pd : DefNode → Document → Document → Option (List α)}
    {m : Registry → List α → Registry} {sch ext : Document} {r : Registry}
    (hm : ∀ s xs, MetaEq s (m s xs)) :
    MetaEq r (stepDefs pn hg hp g pd m sch ext r).1 := by
  unfold stepDefs
  have h1 : MetaEq r (match g sch ext with
      | some xs => (m r xs, true) | none => (r, false) : Registry × Bool).1 := by
    cases g sch ext
    · exact metaEq_refl r
    · exact hm r _
  exact foldl_preserve (fun acc : Registry × Bool => MetaEq r acc.1) _ sch.definitions _ h1
    (fun b d hb => by
      cases pd d sch ext
      · exact hb
      · exact metaEq_trans hb (hm b.1 _))

lemma metaEq_stepDefsPerOnly {α : Type} {pn : String} {hp : HookId}
    {pd : DefNode → Document → Document → Option (List α)}
    {m : Registry → List α → Registry} {sch ext : Document} {r : Registry}
    (hm : ∀ s xs, MetaEq s (m s xs)) :
    MetaEq r (stepDefsPerOnly pn hp pd m sch ext r).1 := by
  unfold stepDefsPerOnly
  exact foldl_preserve (fun acc : Registry × Bool => MetaEq r acc.1) _ sch.definitions _
    (metaEq_refl r)
    (fun b d hb => by
      cases pd d sch ext
      · exact hb
      · exact metaEq_trans hb (hm b.1 _))

lemma metaEq_stepResolvers {pn : String} {hg hp : HookId}
    {g : Document → Document → Option RMap}
    {pd : DefNode → Document → Document → Option RMap}
    {upd : Registry → RMap → Registry} {sch ext : Document} {r : Registry}
    (hu : ∀ s m, MetaEq s (upd s m)) :
    MetaEq r (stepResolvers pn hg hp g pd upd sch ext r).1 := by
  unfold stepResolvers
  have h1 : MetaEq r (match g sch ext with | some m => upd r m | none => r) := by
    cases g sch ext
    · exact metaEq_refl r
    · exact hu r _
  exact foldl_preserve (MetaEq r) _ sch.definitions _ h1
    (fun b d hb => by
      cases pd d sch ext
      · exact hb
      · exact metaEq_trans hb (hu b _))

lemma metaEq_stepResolversPerOnly {pn : String} {hp : HookId}
    {pd : DefNode → Document → Document → Option RMap}
    {upd : Registry → RMap → Registry} {sch ext : Document} {r : Registry}
    (hu : ∀ s m, MetaEq s (upd s m)) :
    MetaEq r (stepResolversPerOnly pn hp pd upd sch ext r).1 := by
  unfold stepResolversPerOnly
  exact foldl_preserve (MetaEq r) _ sch.definitions _ (metaEq_refl r)
    (fun b d hb => by
      cases pd d sch ext
      · exact hb
      · exact metaEq_trans hb (hu b _))

lemma metaEq_stepProps {pn : String} {hid : HookId}
    {hook : DefNode → Document → Document → Option DefNode}
    {sch ext : Document} {r : Registry} :
    MetaEq r (stepProps pn hid hook sch ext r).1 := by
  unfold stepProps
  dsimp only
  split_ifs
  · exact metaEq_refl r
  · exact ⟨rfl, rfl, rfl, rfl⟩

lemma metaEq_stepDirectiveDefs {p : Plugin} {sch ext : Document} {r : Registry} :
    MetaEq r (stepDirectiveDefs p sch ext r).1 := by
  unfold stepDirectiveDefs
  cases p.addDirectiveDefinitions sch ext
  · exact metaEq_refl r
  · exact ⟨rfl, rfl, rfl, rfl⟩

lemma metaEq_stepDirectiveResolvers {p : Plugin} {sch ext : Document} {r : Registry} :
    MetaEq r (stepDirectiveResolvers p sch ext r).1 := by
  unfold stepDirectiveResolvers
  cases p.addDirectiveResolvers sch ext
  · exact metaEq_refl r
  · exact ⟨rfl, rfl, rfl, rfl⟩

lemma metaEq_andThen {r : Registry} {a : Registry × List Event}
    {f : Registry → Registry × List Event}
    (h1 : MetaEq r a.1) (h2 : ∀ s, MetaEq s (f s).1) : MetaEq r (andThen a f).1 :=
  metaEq_trans h1 (h2 a.1)

lemma metaEq_phase2Step (r : Registry) (p : Plugin) : MetaEq r (phase2Step r p).1 :=
  metaEq_stepProps

lemma metaEq_phase3Step (r : Registry) (p : Plugin) : MetaEq r (phase3Step r p).1 := by
  unfold phase3Step
  refine metaEq_andThen ?_ (fun s => metaEq_stepResolversPerOnly (fun s m => ⟨rfl, rfl, rfl, rfl⟩))
  refine metaEq_andThen ?_ (fun s => metaEq_stepResolvers (fun s m => ⟨rfl, rfl, rfl, rfl⟩))
  refine metaEq_andThen ?_ (fun s => metaEq_stepDefsPerOnly (fun s xs => ⟨rfl, rfl, rfl, rfl⟩))
  refine metaEq_andThen ?_ (fun s => metaEq_stepDefs (fun s xs => ⟨rfl, rfl, rfl, rfl⟩))
  refine metaEq_andThen ?_ (fun s => metaEq_stepResolversPerOnly (fun s m => ⟨rfl, rfl, rfl, rfl⟩))
  refine metaEq_andThen ?_ (fun s => metaEq_stepResolvers (fun s m => ⟨rfl, rfl, rfl, rfl⟩))
  refine metaEq_andThen ?_ (fun s => metaEq_stepDefsPerOnly (fun s xs => ⟨rfl, rfl, rfl, rfl⟩))
  refine metaEq_andThen ?_ (fun s => metaEq_stepDefs (fun s xs => ⟨rfl, rfl, rfl, rfl⟩))
  refine metaEq_andThen ?_ (fun s => metaEq_stepResolversPerOnly (fun s m => ⟨rfl, rfl, rfl, rfl⟩))
  refine metaEq_andThen ?_ (fun s => metaEq_stepResolvers (fun s m => ⟨rfl, rfl, rfl, rfl⟩))
  refine metaEq_andThen ?_ (fun s => metaEq_stepDefsPerOnly (fun s xs => ⟨rfl, rfl, rfl, rfl⟩))
  refine metaEq_andThen ?_ (fun s => metaEq_stepDefs (fun s xs => ⟨rfl, rfl, rfl, rfl⟩))
  refine metaEq_andThen ?_ (fun s => metaEq_stepResolversPerOnly (fun s m => ⟨rfl, rfl, rfl, rfl⟩))
  refine metaEq_andThen ?_ (fun s => metaEq_stepResolvers (fun s m => ⟨rfl, rfl, rfl, rfl⟩))
  refine metaEq_andThen ?_ (fun s => metaEq_stepDefsPerOnly (fun s xs => metaEq_mergeIncomingExtensionTypes s xs))
  exact metaEq_stepDefs (fun s xs => ⟨rfl, rfl, rfl, rfl⟩)

lemma metaEq_phase4Step (r : Registry) (p : Plugin) : MetaEq r (phase4Step r p).1 := by
  unfold phase4Step
  refine metaEq_andThen ?_ (fun s => metaEq_stepProps)
  refine metaEq_andThen ?_ (fun s => metaEq_stepDirectiveResolvers)
  exact metaEq_stepDirectiveDefs

lemma metaEq_runSteps (step : Registry → Plugin → Registry × List Event)
    (hstep : ∀ s p, MetaEq s (step s p).1) (r : Registry) (ps : List Plugin) :
    MetaEq r (runSteps step r ps).1 := by
  unfold runSteps
  exact foldl_preserve (fun acc : Registry × List Event => MetaEq r acc.1) _ ps (r, [])
    (metaEq_refl r) (fun b p hb => metaEq_trans hb (hstep b.1 p))

/-- The pipeline body preserves the cached artifact, the plugin list and the
two flags. -/
lemma metaEq_pipelineCoreState (r : Registry) : MetaEq r (pipelineCoreState r) := by
  unfold pipelineCoreState
  have h2 := metaEq_runSteps phase2Step metaEq_phase2Step r r.plugins
  have h3 := metaEq_runSteps phase3Step metaEq_phase3Step
    (runSteps phase2Step r r.plugins).1 r.plugins
  have h4 := metaEq_runSteps phase4Step metaEq_phase4Step
    (runSteps phase3Step (runSteps phase2Step r r.plugins).1 r.plugins).1 r.plugins
  exact metaEq_trans (metaEq_trans h2 h3) h4

/-- A failed pipeline run leaves the cached artifact untouched, the
processed flag `false`, and the plugin list unchanged. -/
lemma processPlugins_failure (r : Registry) (h : (processPlugins r).2.2 = false) :
    (processPlugins r).1.executableSchema = r.executableSchema
    ∧ (processPlugins r).1.hasProcessedPlugins = false
    ∧ (processPlugins r).1.plugins = r.plugins := by
  by_cases hf : r.hasProcessedPlugins = true
  · rw [processPlugins, if_pos hf] at h
    exact absurd h (by simp)
  · by_cases hfin : (pipelineFinal r).2 = true
    · rw [processPlugins, if_neg hf, if_pos hfin] at h
      exact absurd h (by simp)
    · rw [processPlugins, if_neg hf, if_neg hfin] at h ⊢
      have hm := metaEq_pipelineCoreState r
      refine ⟨hm.1, ?_, hm.2.1⟩
      rw [hm.2.2.1]
      exact Bool.not_eq_true _ |>.mp hf

/-- C1: after one completed run — both one-shot flags set — the pipeline
body is an immediate no-op: `processPlugins` returns the registry unchanged
with an empty hook trace, every finalize operation produces an empty hook
trace, and any successful `processPlugins` run leaves the one-shot flag set
(so a plugin hook fired in the body cannot fire again until `clear`). -/
theorem c1_pipeline_runs_once (env : Env) (r : Registry)
    (h1 : r.hasExecutedPreStart = true) (h2 : r.hasProcessedPlugins = true) :
    processPlugins r = (r, [], true)
    ∧ (getFederatableSchema env r).2.2 = []
    ∧ (getSchema env r).2.2 = []
    ∧ (getExecutableSchema env r).2.2 = []
    ∧ ∀ s : Registry, (processPlugins s).2.2 = true →
        (processPlugins s).1.hasProcessedPlugins = true := by
  have hp : processPlugins r = (r, [], true) := by rw [processPlugins, if_pos h2]
  have hpre : preStart env r = r := by rw [preStart, if_pos h1]
  refine ⟨hp, ?_, ?_, ?_, ?_⟩
  · simp [getFederatableSchema, hpre, hp]
  · simp [getSchema, hpre, hp]
  · cases hE : r.executableSchema <;> simp [getExecutableSchema, hpre, hp, hE]
  · intro s hs
    by_cases hf : s.hasProcessedPlugins = true
    · rw [processPlugins, if_pos hf]
      exact hf
    · by_cases hfin : (pipelineFinal s).2 = true
      · rw [processPlugins, if_neg hf, if_pos hfin]
      · rw [processPlugins, if_neg hf, if_neg hfin] at hs
        exact absurd hs (by simp)

/-- Concrete check of `c1_pipeline_runs_once`: one fully-executable build
marks the registry processed; the second build fires no hooks, and a plugin
counting its global type-add hook calls across both builds counts exactly
one. -/
theorem c1_pipeline_runs_once_witness :
    c1Reg1.hasExecutedPreStart = true ∧ c1Reg1.hasProcessedPlugins = true
    ∧ (getExecutableSchema env0 c1Reg1).2.2 = []
    ∧ (((getExecutableSchema env0 c1Reg).2.2 ++ (getExecutableSchema env0 c1Reg1).2.2).filter
        (fun e => e.plugin == "counter" && e.hook == HookId.addTypeDefinitions)).length = 1 :=
  ⟨by decide, by decide,
   (c1_pipeline_runs_once env0 c1Reg1 (by decide) (by decide)).2.2.2.1,
   by decide⟩

/-- C7: when a validation hook raises (the pipeline run fails), the
fully-executable build rejects: no artifact is produced, the cached
executable schema is exactly what it was before, and the pipeline-processed
flag stays `false`, so the next finalize call re-enters the pipeline body. -/
theorem c7_validation_failure_uncached (env : Env) (r : Registry)
    (h1 : r.hasExecutedPreStart = true)
    (h2 : (processPlugins r).2.2 = false) :
    (getExecutableSchema env r).2.1 = none
    ∧ (getExecutableSchema env r).1.executableSchema = r.executableSchema
    ∧ (getExecutableSchema env r).1.hasProcessedPlugins = false := by
  have hpre : preStart env r = r := by rw [preStart, if_pos h1]
  have hfail := processPlugins_failure r h2
  have hge : getExecutableSchema env r
      = ((processPlugins r).1, none, (processPlugins r).2.1) := by
    simp [getExecutableSchema, hpre, h2]
  rw [hge]
  exact ⟨rfl, hfail.1, hfail.2.1⟩

/-- Concrete check of `c7_validation_failure_uncached`: a single plugin
whose validation hook raises. -/
theorem c7_validation_failure_uncached_witness :
    (getExecutableSchema env0 c7Reg).2.1 = none
    ∧ (getExecutableSchema env0 c7Reg).1.executableSchema = c7Reg.executableSchema
    ∧ (getExecutableSchema env0 c7Reg).1.hasProcessedPlugins = false :=
  c7_validation_failure_uncached env0 c7Reg (by decide) (by decide)

/-!  ## Remote-resolution lemmas (for C6) -/

/-- The remote-resolution loop only rewrites `remoteSchemas`, leaving both
assembled documents unchanged. -/
lemma resolveRemotes_docs (r : Registry) :
    getDefinitionsDocument (resolveRemotes r).1 = getDefinitionsDocument r
    ∧ getExtensionDefinitionsDocument (resolveRemotes r).1
      = getExtensionDefinitionsDocument r := by
  unfold resolveRemotes
  refine foldl_preserve
    (fun acc : Registry × List Artifact =>
      getDefinitionsDocument acc.1 = getDefinitionsDocument r
      ∧ getExtensionDefinitionsDocument acc.1 = getExtensionDefinitionsDocument r)
    _ r.remoteSchemas (r, []) ⟨rfl, rfl⟩ ?_
  intro b kv hb
  cases kv.2.asyncSchema
  case some s => exact ⟨hb.1, hb.2⟩
  case none =>
    cases kv.2.schema
    case some s => exact ⟨hb.1, hb.2⟩
    case none => exact hb

/-- Every artifact contributed by the remote-resolution loop is a wrapped
remote source. -/
lemma resolveRemotes_wrapped (r : Registry) :
    ∀ a ∈ (resolveRemotes r).2, ∃ s e t, a = Artifact.wrapped s e t := by
  unfold resolveRemotes
  refine foldl_preserve
    (fun acc : Registry × List Artifact => ∀ a ∈ acc.2, ∃ s e t, a = Artifact.wrapped s e t)
    _ r.remoteSchemas (r, []) (by intro a ha; exact absurd ha (List.not_mem_nil a)) ?_
  intro b kv hb
  cases kv.2.asyncSchema
  case some s =>
    intro a ha
    rcases List.mem_append.mp ha with h | h
    · exact hb a h
    · rcases List.mem_singleton.mp h with rfl
      exact ⟨s, kv.2.executor, kv.2.transforms, rfl⟩
  case none =>
    cases kv.2.schema
    case some s =>
      intro a ha
      rcases List.mem_append.mp ha with h | h
      · exact hb a h
      · rcases List.mem_singleton.mp h with rfl
        exact ⟨s, kv.2.executor, kv.2.transforms, rfl⟩
    case none => exact hb

/-- C6 counterexample: with a registered remote source, the artifact
returned by the declarations-only build `getSchema` stitches in the wrapped
remote schema — remote declaration sources DO contribute to its result. -/
theorem c6_counterexample :
    (getSchema env0 c6Reg).2.1
      = some (Artifact.stitched
          [Artifact.compiled { definitions := [] } none, Artifact.wrapped 5 1 []]
          { definitions := [] } none)
    ∧ Artifact.wrapped 5 1 []
        ∈ [Artifact.compiled { definitions := [] } none, Artifact.wrapped 5 1 []] := by
  exact ⟨rfl, by simp⟩

/-- C6 (amended): any artifact produced by `getSchema` is the stitch of the
locally compiled base document — compiled WITHOUT resolvers — with the
wrapped remote sources and the extension document, again without resolvers;
so no resolvers are attached anywhere, but remote sources and extension
declarations do contribute. -/
theorem c6_get_schema_no_resolvers (env : Env) (r : Registry) (a : Artifact)
    (h : (getSchema env r).2.1 = some a) :
    ∃ remotes,
      a = Artifact.stitched
            (Artifact.compiled (getDefinitionsDocument (getSchema env r).1) none :: remotes)
            (getExtensionDefinitionsDocument (getSchema env r).1) none
      ∧ ∀ w ∈ remotes, ∃ s e t, w = Artifact.wrapped s e t := by
  by_cases hok : (processPlugins (preStart env r)).2.2 = true
  · simp only [getSchema, hok, if_true] at h ⊢
    refine ⟨(resolveRemotes (processPlugins (preStart env r)).1).2, ?_,
      resolveRemotes_wrapped _⟩
    have hdocs := resolveRemotes_docs (processPlugins (preStart env r)).1
    rw [← Option.some.inj h, hdocs.1]
  · simp only [getSchema] at h
    rw [if_neg hok] at h
    exact absurd h (by simp)

/-- Concrete check of `c6_get_schema_no_resolvers` on the remote-carrying
registry of the counterexample. -/
theorem c6_get_schema_no_resolvers_witness :
    ∃ remotes,
      Artifact.stitched
          [Artifact.compiled { definitions := [] } none, Artifact.wrapped 5 1 []]
          { definitions := [] } none
        = Artifact.stitched
            (Artifact.compiled (getDefinitionsDocument (getSchema env0 c6Reg).1) none :: remotes)
            (getExtensionDefinitionsDocument (getSchema env0 c6Reg).1) none
      ∧ ∀ w ∈ remotes, ∃ s e t, w = Artifact.wrapped s e t :=
  c6_get_schema_no_resolvers env0 c6Reg
    (Artifact.stitched
      [Artifact.compiled { definitions := [] } none, Artifact.wrapped 5 1 []]
      { definitions := [] } none)
    rfl

end GQLRegistry
